import Mathlib

/-!
Shallow embedding of `src/src/event_variants.rs` of the evdev repository:
the typed-wrapper family over kernel input events, the `Other` fallback
wrapper, and the `EventSummary` tagged union, together with a model of the
Classifier described by the specification.

Machine integers are embedded as `Nat` (for the unsigned 16-bit `type_`
and `code` fields) and `Int` (for the signed 32-bit `value` and the
timestamp fields): the source performs no arithmetic on any of these
fields, only moves them, so no overflow can occur and the widths play no
role in any statement.  The Rust `unreachable!()` panic in the internal
narrowing constructors is embedded as the `none` case of an `Option`
result: `none` models the fatal, non-recoverable abort, not a value the
Rust caller could observe.
-/

/-- Embeds `libc::timeval`: whole seconds plus microseconds. -/
structure Timeval where
  tv_sec : Int
  tv_usec : Int
deriving DecidableEq, Repr

/-- Embeds the raw kernel record `input_event` together with its
transparent newtype `InputEvent` (the Rust `InputEvent` is
`#[repr(transparent)]` over `input_event`; the two are collapsed into one
Lean structure).  Fields: timestamp, 16-bit type tag, 16-bit code, signed
32-bit value. -/
structure InputEvent where
  time : Timeval
  type_ : Nat
  code : Nat
  value : Int
deriving DecidableEq, Repr

/-- Embeds the `EventType` newtype over the raw 16-bit type tag. -/
structure EventType where
  val : Nat
deriving DecidableEq, Repr

/-- Embeds `InputEvent::event_type`: wraps the raw tag in `EventType`. -/
def InputEvent.event_type (e : InputEvent) : EventType :=
  EventType.mk e.type_

/-- Embeds `InputEvent::timestamp` (the decoded `time` field). -/
def InputEvent.timestamp (e : InputEvent) : Timeval :=
  e.time

/-- The thirteen known event classes of the wrapper family, one per
invocation of the per-class generation in the source (SynchronizationEvent,
KeyEvent, RelativeAxisEvent, AbsoluteAxisEvent, MiscEvent, SwitchEvent,
LedEvent, SoundEvent, RepeatEvent, FFEvent, PowerEvent, FFStatusEvent,
UInputEvent). -/
inductive EventClass where
  | synchronization
  | key
  | relativeAxis
  | absoluteAxis
  | misc
  | switch
  | led
  | sound
  | repeatCls
  | forceFeedback
  | power
  | forceFeedbackStatus
  | uinput
deriving DecidableEq, Repr

/-- Modelled from the spec: the externally supplied numeric tag registry
(`crate::constants` / the `EventType` constants), which is not under
`src/`.  Values are the standard Linux input-event type constants named in
the source (`EventType::SYNCHRONIZATION` = 0x00, `KEY` = 0x01,
`RELATIVE` = 0x02, `ABSOLUTE` = 0x03, `MISC` = 0x04, `SWITCH` = 0x05,
`LED` = 0x11, `SND` = 0x12, `REP` = 0x14, `FF` = 0x15, `PWR` = 0x16,
`FF_STATUS` = 0x17, `UINPUT` = 0x0101); the spec only requires a total,
collision-free mapping from numeric tag to at most one class. -/
def EventClass.evdev_type : EventClass → EventType
  | .synchronization => EventType.mk 0x00
  | .key => EventType.mk 0x01
  | .relativeAxis => EventType.mk 0x02
  | .absoluteAxis => EventType.mk 0x03
  | .misc => EventType.mk 0x04
  | .switch => EventType.mk 0x05
  | .led => EventType.mk 0x11
  | .sound => EventType.mk 0x12
  | .repeatCls => EventType.mk 0x14
  | .forceFeedback => EventType.mk 0x15
  | .power => EventType.mk 0x16
  | .forceFeedbackStatus => EventType.mk 0x17
  | .uinput => EventType.mk 0x0101

/-- The numeric tag reserved for a class. -/
def EventClass.tag (c : EventClass) : Nat :=
  c.evdev_type.val

/-- Embeds the per-class code-kind newtypes (`SynchronizationType`,
`KeyType`, ..., `UInputType`): each is a transparent newtype over the
16-bit `code`, indexed here by its class. -/
structure EvKind (c : EventClass) where
  code : Nat
deriving DecidableEq, Repr

/-- Embeds the macro-generated wrapper newtypes (`SynchronizationEvent(InputEvent)`,
`KeyEvent(InputEvent)`, ...): one transparent wrapper over `InputEvent`
per class, indexed here by the class. -/
structure EvWrapper (c : EventClass) where
  ev : InputEvent
deriving DecidableEq, Repr

namespace EvWrapper

/-- Embeds `Deref`/`self.code()` on a wrapper. -/
def code {c : EventClass} (w : EvWrapper c) : Nat :=
  w.ev.code

/-- Embeds `Deref`/`self.value()` on a wrapper. -/
def value {c : EventClass} (w : EvWrapper c) : Int :=
  w.ev.value

/-- Embeds the internal `from_raw`: match `EventType(raw.type_)` against
the reserved `EventType` of the class; on mismatch the source hits
`unreachable!()`, embedded as `none`. -/
def from_raw (c : EventClass) (raw : InputEvent) : Option (EvWrapper c) :=
  if EventType.mk raw.type_ = c.evdev_type then some (EvWrapper.mk raw) else none

/-- Embeds the crate-internal `from_event`: match `event.event_type()`
against the reserved `EventType` of the class; on mismatch the source hits
`unreachable!()`, embedded as `none`. -/
def from_event (c : EventClass) (event : InputEvent) : Option (EvWrapper c) :=
  if event.event_type = c.evdev_type then some (EvWrapper.mk event) else none

/-- Embeds the public constructor `new(kind, value)`: synthesizes a raw
event with the zero timestamp, the reserved tag of the class and the kind
code, then goes through `from_raw`. -/
def new (c : EventClass) (kind : EvKind c) (value : Int) : Option (EvWrapper c) :=
  from_raw c (InputEvent.mk (Timeval.mk 0 0) c.evdev_type.val kind.code value)

/-- Embeds the public constructor `new_now(kind, value)`: identical to
`new` except the timestamp is the current wall-clock time, passed here
explicitly as `now` (the result of `systime_to_timeval(&SystemTime::now())`). -/
def new_now (c : EventClass) (now : Timeval) (kind : EvKind c) (value : Int) :
    Option (EvWrapper c) :=
  from_raw c (InputEvent.mk now c.evdev_type.val kind.code value)

/-- Embeds `kind()`: rebuild the kind newtype from the stored code. -/
def kind {c : EventClass} (w : EvWrapper c) : EvKind c :=
  EvKind.mk w.code

/-- Embeds `destructure()`: `($kind(self.code()), self.value())`. -/
def destructure {c : EventClass} (w : EvWrapper c) : EvKind c × Int :=
  (EvKind.mk w.code, w.value)

end EvWrapper

/-- Embeds the widening conversion `impl From<$name> for InputEvent`:
return the wrapped event (`event.0`). -/
def InputEvent.ofWrapper {c : EventClass} (event : EvWrapper c) : InputEvent :=
  event.ev

/-- Embeds the fallback wrapper `OtherEvent(InputEvent)` for events whose
tag is not one of the thirteen known tags (the wrapper itself imposes no
constraint; the Classifier only builds it for unknown tags). -/
structure OtherEvent where
  ev : InputEvent
deriving DecidableEq, Repr

/-- Embeds the `OtherType(u16, u16)` raw kind pair from `crate::constants`:
the raw type tag together with the raw code. -/
structure OtherType where
  type_tag : Nat
  code : Nat
deriving DecidableEq, Repr

namespace OtherEvent

/-- Embeds `Deref`/`self.code()` on the fallback wrapper. -/
def code (o : OtherEvent) : Nat :=
  o.ev.code

/-- Embeds `Deref`/`self.value()` on the fallback wrapper. -/
def value (o : OtherEvent) : Int :=
  o.ev.value

/-- Embeds `OtherEvent::kind`: `OtherType(self.event_type().0, self.code())`. -/
def kind (o : OtherEvent) : OtherType :=
  OtherType.mk o.ev.event_type.val o.code

/-- Embeds `OtherEvent::destructure`: `(self.kind(), self.value())`. -/
def destructure (o : OtherEvent) : OtherType × Int :=
  (o.kind, o.value)

end OtherEvent

/-- Embeds the widening conversion `impl From<OtherEvent> for InputEvent`. -/
def InputEvent.ofOther (event : OtherEvent) : InputEvent :=
  event.ev

/-- Embeds the `EventSummary` tagged union: one case per known class,
holding the typed wrapper together with its decoded kind and value (the
thirteen macro-generated cases are indexed here by `EventClass`), plus the
`Other` case holding the fallback wrapper, its raw kind pair and value. -/
inductive EventSummary where
  | known (c : EventClass) (wrapper : EvWrapper c) (kind : EvKind c) (value : Int)
  | Other (wrapper : OtherEvent) (kind : OtherType) (value : Int)
deriving DecidableEq, Repr

/-- Embeds `impl From<$name> for EventSummary`: `destructure` the wrapper
and build the summary case of that class from the wrapper, kind and value. -/
def EventSummary.ofWrapper (c : EventClass) (event : EvWrapper c) : EventSummary :=
  EventSummary.known c event event.destructure.1 event.destructure.2

/-- Embeds `impl From<OtherEvent> for EventSummary`. -/
def EventSummary.ofOther (event : OtherEvent) : EventSummary :=
  EventSummary.Other event event.destructure.1 event.destructure.2

/-- Modelled from the spec: the tag-to-class side of the registry that the
Classifier dispatches on — the inverse of `EventClass.evdev_type`,
returning `none` for the tags outside the thirteen known classes. -/
def tagClass (t : Nat) : Option EventClass :=
  match t with
  | 0x00 => some .synchronization
  | 0x01 => some .key
  | 0x02 => some .relativeAxis
  | 0x03 => some .absoluteAxis
  | 0x04 => some .misc
  | 0x05 => some .switch
  | 0x11 => some .led
  | 0x12 => some .sound
  | 0x14 => some .repeatCls
  | 0x15 => some .forceFeedback
  | 0x16 => some .power
  | 0x17 => some .forceFeedbackStatus
  | 0x0101 => some .uinput
  | _ => none

/-- Modelled from the spec: the Classifier `classify(rawEvent) -> EventSummary`
(the dispatch function over `InputEvent` is not under `src/`; only the
per-class narrowing path `from_event` it calls is).  Per spec section 4.4: inspect
the type tag; on one of the thirteen reserved tags build the matching
typed wrapper through the internal validated path (`from_event`) and
return the summary case of that class; otherwise build the fallback wrapper
and return the `Other` case.  The `none` branch of `from_event` is
unreachable here because the tag was already matched. -/
def classify (ev : InputEvent) : EventSummary :=
  match tagClass ev.type_ with
  | some c =>
    match EvWrapper.from_event c ev with
    | some w => EventSummary.ofWrapper c w
    | none => EventSummary.ofOther (OtherEvent.mk ev)
  | none => EventSummary.ofOther (OtherEvent.mk ev)

/- Convenience abbreviations mirroring the concrete per-class source
names. -/

/-- Source name for `EvWrapper .synchronization`. -/
abbrev SynchronizationEvent := EvWrapper .synchronization

/-- Source name for `EvWrapper .key`. -/
abbrev KeyEvent := EvWrapper .key

/-- Source name for `EvKind .synchronization`. -/
abbrev SynchronizationType := EvKind .synchronization

/-- Source name for `EvKind .key`. -/
abbrev KeyType := EvKind .key

/- Helper lemmas shared by the claim theorems. -/

theorem from_raw_eq_some {c : EventClass} {raw : InputEvent} {w : EvWrapper c}
    (h : EvWrapper.from_raw c raw = some w) :
    raw.type_ = c.tag ∧ w = EvWrapper.mk raw := by
  unfold EvWrapper.from_raw at h
  split at h
  · rename_i hc
    refine ⟨?_, by exact (Option.some.injEq _ _).mp h |>.symm ▸ rfl⟩
    have := congrArg EventType.val hc
    simpa [EventClass.tag] using this
  · exact absurd h (by simp)

theorem from_event_eq_some {c : EventClass} {ev : InputEvent} {w : EvWrapper c}
    (h : EvWrapper.from_event c ev = some w) :
    ev.type_ = c.tag ∧ w = EvWrapper.mk ev := by
  unfold EvWrapper.from_event at h
  split at h
  · rename_i hc
    refine ⟨?_, by exact (Option.some.injEq _ _).mp h |>.symm ▸ rfl⟩
    have := congrArg EventType.val hc
    simpa [InputEvent.event_type, EventClass.tag] using this
  · exact absurd h (by simp)

theorem from_raw_matching (c : EventClass) (raw : InputEvent)
    (h : raw.type_ = c.tag) :
    EvWrapper.from_raw c raw = some (EvWrapper.mk raw) := by
  unfold EvWrapper.from_raw
  rw [if_pos]
  cases hc : c.evdev_type with
  | mk v =>
    have : c.tag = v := by simp [EventClass.tag, hc]
    simp [h, this, hc]

theorem from_event_matching (c : EventClass) (ev : InputEvent)
    (h : ev.type_ = c.tag) :
    EvWrapper.from_event c ev = some (EvWrapper.mk ev) := by
  unfold EvWrapper.from_event
  rw [if_pos]
  cases hc : c.evdev_type with
  | mk v =>
    have : c.tag = v := by simp [EventClass.tag, hc]
    simp [InputEvent.event_type, h, this, hc]

theorem tagClass_tag (c : EventClass) : tagClass c.tag = some c := by
  cases c <;> rfl

theorem new_eq (c : EventClass) (k : EvKind c) (v : Int) :
    EvWrapper.new c k v =
      some (EvWrapper.mk (InputEvent.mk (Timeval.mk 0 0) c.tag k.code v)) := by
  unfold EvWrapper.new
  exact from_raw_matching c _ rfl

theorem new_now_eq (c : EventClass) (now : Timeval) (k : EvKind c) (v : Int) :
    EvWrapper.new_now c now k v =
      some (EvWrapper.mk (InputEvent.mk now c.tag k.code v)) := by
  unfold EvWrapper.new_now
  exact from_raw_matching c _ rfl

theorem tagClass_eq_some {t : Nat} {c : EventClass} (h : tagClass t = some c) :
    t = c.tag := by
  unfold tagClass at h
  split at h <;> simp_all <;> subst h <;> rfl

/-- C1: every wrapper of a class `c` reachable through any construction
path — the public constructors `new` and `new_now` and the internal
narrowing `from_event` — wraps an event whose `type_` equals the tag
reserved for `c`, and the widening operation (the only operation exposing
the event again) leaves that tag unchanged. -/
theorem C1_tag_invariant (c : EventClass) (k : EvKind c) (v : Int)
    (now : Timeval) (ev : InputEvent) (w₁ w₂ w₃ : EvWrapper c)
    (h₁ : EvWrapper.new c k v = some w₁)
    (h₂ : EvWrapper.new_now c now k v = some w₂)
    (h₃ : EvWrapper.from_event c ev = some w₃) :
    w₁.ev.type_ = c.tag ∧ w₂.ev.type_ = c.tag ∧ w₃.ev.type_ = c.tag ∧
    (InputEvent.ofWrapper w₁).type_ = c.tag ∧
    (InputEvent.ofWrapper w₂).type_ = c.tag ∧
    (InputEvent.ofWrapper w₃).type_ = c.tag := by
  rw [new_eq] at h₁
  rw [new_now_eq] at h₂
  obtain ⟨hev, hw⟩ := from_event_eq_some h₃
  injection h₁ with h₁
  injection h₂ with h₂
  subst h₁
  subst h₂
  subst hw
  exact ⟨rfl, rfl, hev, rfl, rfl, hev⟩

/-- Witness for C1 at the Key class: kind code 30, value 1, a concrete
wall-clock time, and a raw event already carrying the Key tag. -/
theorem C1_tag_invariant_witness :
    (EvWrapper.mk (InputEvent.mk (Timeval.mk 0 0) 1 30 1) : KeyEvent).ev.type_
        = EventClass.key.tag ∧
    (EvWrapper.mk (InputEvent.mk (Timeval.mk 5 6) 1 30 1) : KeyEvent).ev.type_
        = EventClass.key.tag ∧
    (EvWrapper.mk (InputEvent.mk (Timeval.mk 7 8) 1 30 1) : KeyEvent).ev.type_
        = EventClass.key.tag ∧
    (InputEvent.ofWrapper
        (EvWrapper.mk (InputEvent.mk (Timeval.mk 0 0) 1 30 1) : KeyEvent)).type_
        = EventClass.key.tag ∧
    (InputEvent.ofWrapper
        (EvWrapper.mk (InputEvent.mk (Timeval.mk 5 6) 1 30 1) : KeyEvent)).type_
        = EventClass.key.tag ∧
    (InputEvent.ofWrapper
        (EvWrapper.mk (InputEvent.mk (Timeval.mk 7 8) 1 30 1) : KeyEvent)).type_
        = EventClass.key.tag :=
  C1_tag_invariant .key (EvKind.mk 30) 1 (Timeval.mk 5 6)
    (InputEvent.mk (Timeval.mk 7 8) 1 30 1)
    (EvWrapper.mk (InputEvent.mk (Timeval.mk 0 0) 1 30 1))
    (EvWrapper.mk (InputEvent.mk (Timeval.mk 5 6) 1 30 1))
    (EvWrapper.mk (InputEvent.mk (Timeval.mk 7 8) 1 30 1))
    (by decide) (by decide) (by decide)

/-- C2: `classify` is total and deterministic over every type tag: on a
tag registered for one of the thirteen known classes it yields exactly
that class summary case (wrapping the event, its decoded kind and value),
and on every unregistered tag it yields the `Other` case carrying the raw
tag, code and value; in particular the raw event with unregistered tag
9999, code 5, value 0 classifies to `Other` with tag 9999, code 5,
value 0. -/
theorem C2_classify_total :
    (∀ ev : InputEvent,
      (∃ c : EventClass, tagClass ev.type_ = some c ∧
        classify ev =
          EventSummary.known c (EvWrapper.mk ev) (EvKind.mk ev.code) ev.value) ∨
      (tagClass ev.type_ = none ∧
        classify ev =
          EventSummary.Other (OtherEvent.mk ev)
            (OtherType.mk ev.type_ ev.code) ev.value)) ∧
    classify (InputEvent.mk (Timeval.mk 0 0) 9999 5 0) =
      EventSummary.Other (OtherEvent.mk (InputEvent.mk (Timeval.mk 0 0) 9999 5 0))
        (OtherType.mk 9999 5) 0 := by
  constructor
  · intro ev
    cases htc : tagClass ev.type_ with
    | some c =>
      left
      have ht := tagClass_eq_some htc
      have hfe := from_event_matching c ev ht
      refine ⟨c, rfl, ?_⟩
      simp [classify, htc, hfe, EventSummary.ofWrapper, EvWrapper.destructure,
        EvWrapper.code, EvWrapper.value]
    | none =>
      right
      refine ⟨rfl, ?_⟩
      simp [classify, htc, EventSummary.ofOther, OtherEvent.destructure,
        OtherEvent.kind, OtherEvent.value, OtherEvent.code, InputEvent.event_type]
  · rfl

/-- C3: the widen round trip: for every class, kind and value, `new`
produces a wrapper; widening it to the raw event and classifying yields
the summary case of that same class carrying that same wrapper, the same
kind and the same value, and the wrapper timestamp is the zero
timestamp. -/
theorem C3_roundtrip_widen (c : EventClass) (k : EvKind c) (v : Int) :
    ∃ w : EvWrapper c, EvWrapper.new c k v = some w ∧
      classify (InputEvent.ofWrapper w) = EventSummary.known c w k v ∧
      (InputEvent.ofWrapper w).timestamp = Timeval.mk 0 0 := by
  refine ⟨EvWrapper.mk (InputEvent.mk (Timeval.mk 0 0) c.tag k.code v),
    new_eq c k v, ?_, rfl⟩
  have hfe := from_event_matching c (InputEvent.mk (Timeval.mk 0 0) c.tag k.code v) rfl
  simp [InputEvent.ofWrapper, classify, tagClass_tag c, hfe,
    EventSummary.ofWrapper, EvWrapper.destructure, EvWrapper.code, EvWrapper.value]

/-- C4: `new` always succeeds and yields a wrapper whose timestamp is the
zero value, whose tag is the reserved tag of the class, whose code is the
code of the kind and whose value is the given value. -/
theorem C4_construct (c : EventClass) (k : EvKind c) (v : Int) :
    ∃ w : EvWrapper c, EvWrapper.new c k v = some w ∧
      w.ev.timestamp = Timeval.mk 0 0 ∧ w.ev.type_ = c.tag ∧
      w.ev.code = k.code ∧ w.ev.value = v :=
  ⟨EvWrapper.mk (InputEvent.mk (Timeval.mk 0 0) c.tag k.code v),
    new_eq c k v, rfl, rfl, rfl, rfl⟩

/-- C5: the internal narrowing `from_event` returns the wrapper around the
given event exactly when the event tag equals the reserved tag of the
class, and otherwise reaches `unreachable!()` — a fatal, non-recoverable
abort, embedded as `none` (the Rust signature returns `Self`, so no
recoverable error value is ever handed to the caller). -/
theorem C5_from_event_total_spec (c : EventClass) (ev : InputEvent) :
    EvWrapper.from_event c ev =
      if ev.type_ = c.tag then some (EvWrapper.mk ev) else none := by
  by_cases h : ev.type_ = c.tag
  · rw [if_pos h]
    exact from_event_matching c ev h
  · rw [if_neg h]
    unfold EvWrapper.from_event
    rw [if_neg]
    intro hc
    exact h (by
      have := congrArg EventType.val hc
      simpa [InputEvent.event_type, EventClass.tag] using this)

/-- C6: widening a typed wrapper to the raw event is total and lossless:
it returns the wrapped event itself, so all four fields (timestamp, type
tag, code, value) are unchanged. -/
theorem C6_widen_lossless (c : EventClass) (w : EvWrapper c) :
    InputEvent.ofWrapper w = w.ev ∧
    (InputEvent.ofWrapper w).time = w.ev.time ∧
    (InputEvent.ofWrapper w).type_ = w.ev.type_ ∧
    (InputEvent.ofWrapper w).code = w.ev.code ∧
    (InputEvent.ofWrapper w).value = w.ev.value :=
  ⟨rfl, rfl, rfl, rfl, rfl⟩

/-- C7: for every typed wrapper of every known class and for every
fallback wrapper, `destructure` returns exactly the pair of `kind` and
`value`. -/
theorem C7_destructure_pair (c : EventClass) (w : EvWrapper c) (o : OtherEvent) :
    w.destructure = (w.kind, w.value) ∧ o.destructure = (o.kind, o.value) :=
  ⟨rfl, rfl⟩

/-- C8: the `kind` of a fallback wrapper is exactly the raw
(type tag, code) pair of the wrapped event, with no decoding. -/
theorem C8_other_kind_raw (o : OtherEvent) :
    o.kind = OtherType.mk o.ev.type_ o.ev.code :=
  rfl

/-- C9: the public constructors `new` and `new_now` never reach the
`unreachable!()` branch of the internal tag check, embedded as: their
result is always `some`. -/
theorem C9_constructors_no_abort (c : EventClass) (k : EvKind c) (v : Int)
    (now : Timeval) :
    (EvWrapper.new c k v).isSome ∧ (EvWrapper.new_now c now k v).isSome := by
  rw [new_eq, new_now_eq]
  exact ⟨rfl, rfl⟩

/-- C10: converting a typed wrapper into an `EventSummary` yields the
summary case of its class carrying the wrapper itself together with its
own `kind` and `value`, and likewise for the fallback wrapper and the
`Other` case, so the kind and value stored in a summary case built this
way are always consistent with the wrapper it holds. -/
theorem C10_summary_consistent (c : EventClass) (w : EvWrapper c) (o : OtherEvent) :
    EventSummary.ofWrapper c w = EventSummary.known c w w.kind w.value ∧
    EventSummary.ofOther o = EventSummary.Other o o.kind o.value :=
  ⟨rfl, rfl⟩
